import Mathlib

/-!
Shallow embedding of the PortaAI portfolio-analytics core.

Conventions of the embedding:
- Python floats are modelled as exact rationals (`ℚ`); the only genuinely
  real-valued operation, `x ** y` with a fractional exponent, is modelled
  with `Real.rpow` on the rational operands cast to `ℝ`.
- Python exceptions are modelled with `Except String`: a float division
  `a / b` raises `ZeroDivisionError` when `b = 0` (`pydiv`), `list[-1]` on
  an empty list raises `IndexError`, `x ** y` with `x < 0` and a
  non-integral float `y` yields a complex number in Python 3, which blows
  up at the next ordered comparison (`TypeError`); these are the error
  strings used below.
- Python dicts built by insertion are modelled as association lists that
  preserve insertion order (`addAmount` / `groupAmounts`).
- Chart/figure construction (pandas, plotly) and f-string message text are
  not modelled: no claim depends on them, and in the source the chart
  construction of the scenario engine is wrapped in its own inner
  `try/except` so it cannot change control flow.
-/

/-- One portfolio line item, from the shape consumed by
`portfolio_analyzer.analyze_portfolio`: a name, an asset category and a
currency amount. -/
structure Holding where
  name : String
  category : String
  amount : ℚ
deriving DecidableEq, Repr

/-- Python float division: raises ZeroDivisionError on a zero denominator,
otherwise exact division (floats modelled as rationals). -/
def pydiv (a b : ℚ) : Except String ℚ :=
  if b = 0 then .error "ZeroDivisionError" else .ok (a / b)

/-- Python substring containment `needle in hay` on strings. -/
def containsB (hay needle : String) : Bool :=
  hay.data.tails.any (fun t => needle.data.isPrefixOf t)

/-- Monadic map over `Except`, written with explicit structural recursion
so that its equations hold definitionally: the Python loops and
comprehensions below stop at the first raised exception. -/
def mapME {α β : Type} (f : α → Except String β) :
    List α → Except String (List β)
  | [] => .ok []
  | a :: t => do
      let b ← f a
      let bs ← mapME f t
      pure (b :: bs)

/-- One step of the category-grouping loop shared by
`analyze_portfolio`, `predict_portfolio_performance` and
`generate_economic_scenario_analysis`:
`if category in dict: dict[category] += amount else: dict[category] = amount`,
on an insertion-ordered association list. -/
def addAmount : List (String × ℚ) → String → ℚ → List (String × ℚ)
  | [], c, a => [(c, a)]
  | (c', a') :: t, c, a =>
      if c' = c then (c', a' + a) :: t else (c', a') :: addAmount t c a

/-- Grouping of a portfolio by category into summed amounts, as done by the
`for item in portfolio` accumulation loops of the source. -/
def groupAmounts (p : List Holding) : List (String × ℚ) :=
  p.foldl (fun acc i => addAmount acc i.category i.amount) []

/-- Lookup in an association list (Python dict read). -/
def alookup (l : List (String × ℚ)) (c : String) : Option ℚ :=
  l.lookup c

/-- Allocation table of `utils.get_risk_profile_allocation`: exact-keyed
dictionary lookup with the Medium row as the `.get` default. -/
def get_risk_profile_allocation (risk_profile : String) : List (String × ℚ) :=
  if risk_profile = "Low Risk (Conservative)" then
    [("Large Cap", 40), ("Mid Cap", 25), ("Small Cap", 20), ("Gold", 10), ("ETFs/Crypto", 5)]
  else if risk_profile = "Medium Risk (Balanced)" then
    [("Large Cap", 30), ("Mid Cap", 30), ("Small Cap", 25), ("Gold", 10), ("ETFs/Crypto", 5)]
  else if risk_profile = "High Risk (Aggressive)" then
    [("Large Cap", 25), ("Mid Cap", 25), ("Small Cap", 35), ("ETFs/Crypto", 10), ("Gold", 5)]
  else  -- dict .get default: the Medium Risk (Balanced) row
    [("Large Cap", 30), ("Mid Cap", 30), ("Small Cap", 25), ("Gold", 10), ("ETFs/Crypto", 5)]

/-- Expected annual return table of
`advanced_analytics.get_expected_return_rates`: dispatch by substring
containment on the risk-profile string, with the High Risk row as the
final `else`. -/
def get_expected_return_rates (risk_profile : String) : List (String × ℚ) :=
  if containsB risk_profile "Low Risk" then
    [("Large Cap", 6/100), ("Mid Cap", 8/100), ("Small Cap", 10/100),
     ("Gold", 4/100), ("ETFs/Crypto", 7/100)]
  else if containsB risk_profile "Medium Risk" then
    [("Large Cap", 8/100), ("Mid Cap", 10/100), ("Small Cap", 13/100),
     ("Gold", 4/100), ("ETFs/Crypto", 12/100)]
  else
    [("Large Cap", 9/100), ("Mid Cap", 12/100), ("Small Cap", 15/100),
     ("Gold", 4/100), ("ETFs/Crypto", 18/100)]

/-- Volatility table of `advanced_analytics.get_volatility_estimates`:
same substring dispatch, High Risk row as the final `else`. -/
def get_volatility_estimates (risk_profile : String) : List (String × ℚ) :=
  if containsB risk_profile "Low Risk" then
    [("Large Cap", 10/100), ("Mid Cap", 14/100), ("Small Cap", 18/100),
     ("Gold", 12/100), ("ETFs/Crypto", 20/100)]
  else if containsB risk_profile "Medium Risk" then
    [("Large Cap", 12/100), ("Mid Cap", 16/100), ("Small Cap", 20/100),
     ("Gold", 12/100), ("ETFs/Crypto", 25/100)]
  else
    [("Large Cap", 15/100), ("Mid Cap", 20/100), ("Small Cap", 25/100),
     ("Gold", 12/100), ("ETFs/Crypto", 35/100)]

/-- Result shape of `portfolio_analyzer.analyze_portfolio` (the `insights`
list carries only human-readable messages and is elided: no claim inspects
it and building it performs no operation that can raise beyond the
divisions already modelled in the percentage map and repeated per item in
the over-concentration loop). -/
structure AnalysisResult where
  current_allocation : List (String × ℚ)
  target_allocation : List (String × ℚ)
deriving DecidableEq, Repr

/-- Embedding of `portfolio_analyzer.analyze_portfolio`:
empty portfolio short-circuits with an empty current allocation; otherwise
total investment, per-category grouping, and conversion of each grouped
amount to a percentage `(amount / total_investment) * 100`.  Each division
raises ZeroDivisionError when the total is zero (which in the source
happens on the first holding of the percentage comprehension). -/
def analyze_portfolio (portfolio : List Holding) (risk_profile : String) :
    Except String AnalysisResult :=
  if portfolio = [] then
    .ok { current_allocation := [],
          target_allocation := get_risk_profile_allocation risk_profile }
  else do
    let total_investment := (portfolio.map (·.amount)).sum
    let grouped := groupAmounts portfolio
    let pct ← mapME (fun ca => do
      let w ← pydiv ca.2 total_investment
      pure (ca.1, w * 100)) grouped
    pure { current_allocation := pct,
           target_allocation := get_risk_profile_allocation risk_profile }

/-- One rebalancing action of
`portfolio_analyzer.get_allocation_recommendation` (the formatted
`message` string is elided). -/
structure RecAction where
  category : String
  action_type : String
  current_amount : ℚ
  target_amount : ℚ
  difference : ℚ
deriving DecidableEq, Repr

/-- Result shape of `portfolio_analyzer.get_allocation_recommendation`. -/
structure RecResult where
  actions : List RecAction
  total_investment : ℚ
deriving DecidableEq, Repr

/-- Loop body of `portfolio_analyzer.get_allocation_recommendation` for
one target-allocation entry:
`current_pct = current_allocation.get(category, 0)`,
`current_amount = total * (pct/100) if pct > 0 else 0`,
`target_amount = total * (target_pct/100)`, and an increase or decrease
action is appended exactly when `|difference| > total * 0.01` with
`difference = target_amount - current_amount`. -/
def recActionFor (total_investment : ℚ)
    (current_allocation : List (String × ℚ)) (ct : String × ℚ) :
    Option RecAction :=
  let current_pct := (alookup current_allocation ct.1).getD 0
  let current_amount :=
    if current_pct > 0 then total_investment * (current_pct / 100) else 0
  let target_amount := total_investment * (ct.2 / 100)
  let difference := target_amount - current_amount
  if |difference| > total_investment * (1/100) then
    if difference > 0 then
      some { category := ct.1, action_type := "increase",
             current_amount := current_amount,
             target_amount := target_amount, difference := difference }
    else
      some { category := ct.1, action_type := "decrease",
             current_amount := current_amount,
             target_amount := target_amount, difference := difference }
  else none

/-- Embedding of `portfolio_analyzer.get_allocation_recommendation`:
iterates the target-allocation dictionary accumulating the actions
produced by `recActionFor`. -/
def get_allocation_recommendation (portfolio : List Holding)
    (analysis_result : AnalysisResult) : RecResult :=
  if portfolio = [] then
    { actions := [], total_investment := 0 }
  else
    let total_investment := (portfolio.map (·.amount)).sum
    { actions := analysis_result.target_allocation.filterMap
        (recActionFor total_investment analysis_result.current_allocation),
      total_investment := total_investment }

/-- Coefficient drawn from a category table, 0 when the category is
absent (the source skips the accumulation step for absent categories,
which adds the same 0). -/
def tableCoeff (table : List (String × ℚ)) (c : String) : ℚ :=
  (alookup table c).getD 0

/-- Weighted-sum accumulation loop shared by the projection and scenario
engines: for each grouped category, `weight = amount / total` (a float
division that raises ZeroDivisionError when the total is zero, performed
before the table lookup, as in the source) and the accumulator gains
`weight * coeff category`. -/
def wsStep (coeff : String → ℚ) (total : ℚ) (acc : ℚ) (ca : String × ℚ) :
    Except String ℚ := do
  let w ← pydiv ca.2 total
  pure (acc + w * coeff ca.1)

/-- The weighted-sum loop itself, folding `wsStep` from 0. -/
def weightedSumE (coeff : String → ℚ) (total : ℚ)
    (groups : List (String × ℚ)) : Except String ℚ :=
  groups.foldlM (wsStep coeff total) 0

/-- Pure value of `weightedSumE` when no division raises. -/
def weightedSumPure (coeff : String → ℚ) (total : ℚ)
    (groups : List (String × ℚ)) : ℚ :=
  (groups.map (fun ca => ca.2 / total * coeff ca.1)).sum

/-- Python `b ** (m/12)` for a float base and a month index `m`: a real
power for a non-negative base; for a negative base and a non-integral
exponent Python 3 yields a complex number, which in the source blows up
with a TypeError at the next ordered comparison or numeric format in the
same call — modelled as the error arising at the power itself. -/
noncomputable def pypowM (b : ℚ) (m : ℕ) : Except String ℝ :=
  if b < 0 ∧ ¬ (12 ∣ m) then .error "TypeError"
  else .ok ((b : ℝ) ^ (((m : ℕ) : ℝ) / 12))

/-- One monthly grid point of the projection: pessimistic, expected and
optimistic band values. -/
structure BandPoint where
  pessimistic : ℝ
  expected : ℝ
  optimistic : ℝ

/-- One year-mark snapshot of
`advanced_analytics.predict_portfolio_performance`. -/
structure Prediction where
  year : ℤ
  pessimistic : ℝ
  expected : ℝ
  optimistic : ℝ

/-- Result shape of `advanced_analytics.predict_portfolio_performance`
(dates, the pandas chart frame, and the f-string summary text are elided;
the summary reads of `values[-1]` are kept as `final_values`). -/
structure PredictResult where
  predictions : List Prediction
  series : List BandPoint
  weighted_return : ℚ
  portfolio_volatility : ℚ
  expected_returns : List (String × ℚ)
  risk_assessment : List (String × ℚ)
  final_values : BandPoint

/-- Snapshot extraction of `predict_portfolio_performance` for one year
mark: indexes the monthly series at `year * 12` (an IndexError if out of
range, which cannot happen for an in-horizon year). -/
def predictionAt (series : List BandPoint) (y : ℤ) :
    Except String Prediction :=
  match series.get? (y * 12).toNat with
  | some v => .ok { year := y, pessimistic := v.pessimistic,
                    expected := v.expected, optimistic := v.optimistic }
  | none => .error "IndexError"

/-- The `values[-1]` reads of the summary block: the last monthly grid
point, an IndexError when the series is empty. -/
def lastBand (series : List BandPoint) : Except String BandPoint :=
  match series.getLast? with
  | some v => .ok v
  | none => .error "IndexError"

/-- Embedding of `advanced_analytics.predict_portfolio_performance`:
total value, per-category grouping, weighted expected return and weighted
volatility (divisions raise on a zero total for a non-empty portfolio),
then for each of the months `0 .. 12*horizon` the three compounded band
values `total * (1 + r ∓ v) ** (month/12)` with the pessimistic band
floored at 0, year-mark snapshots for years {1,3,5} within the horizon,
and the `[-1]` accesses of the summary (an IndexError when the horizon is
negative, making the monthly series empty). -/
noncomputable def predict_portfolio_performance (portfolio : List Holding)
    (risk_profile : String) (time_horizon_years : ℤ) :
    Except String PredictResult := do
  let total_value := (portfolio.map (·.amount)).sum
  let expected_returns := get_expected_return_rates risk_profile
  let grouped := groupAmounts portfolio
  let weighted_return ← weightedSumE (tableCoeff expected_returns) total_value grouped
  let volatility_estimates := get_volatility_estimates risk_profile
  let portfolio_volatility ←
    weightedSumE (tableCoeff volatility_estimates) total_value grouped
  let months :=
    if 0 ≤ time_horizon_years then List.range (time_horizon_years.toNat * 12 + 1)
    else []
  let series ← mapME (fun m => do
    let ev ← pypowM (1 + weighted_return) m
    let pv ← pypowM (1 + weighted_return - portfolio_volatility) m
    let ov ← pypowM (1 + weighted_return + portfolio_volatility) m
    pure ({ pessimistic := max 0 ((total_value : ℝ) * pv),
            expected := (total_value : ℝ) * ev,
            optimistic := (total_value : ℝ) * ov } : BandPoint)) months
  let predictions ← mapME (predictionAt series)
    (([1, 3, 5] : List ℤ).filter (· ≤ time_horizon_years))
  let final_values ← lastBand series
  pure { predictions := predictions, series := series,
         weighted_return := weighted_return,
         portfolio_volatility := portfolio_volatility,
         expected_returns := expected_returns,
         risk_assessment := volatility_estimates,
         final_values := final_values }

/-- Pure value of one monthly grid point of the projection (the value the
loop body produces when no power raises): pessimistic, expected and
optimistic compounded values for bases `bp`, `be`, `bo`. -/
noncomputable def bandAt (T bp be bo : ℚ) (m : ℕ) : BandPoint :=
  { pessimistic := max 0 ((T : ℝ) * ((bp : ℚ) : ℝ) ^ ((m : ℝ) / 12)),
    expected := (T : ℝ) * ((be : ℚ) : ℝ) ^ ((m : ℝ) / 12),
    optimistic := (T : ℝ) * ((bo : ℚ) : ℝ) ^ ((m : ℝ) / 12) }

/-- One entry of the fixed `scenario_config` dictionary of
`advanced_analytics.generate_economic_scenario_analysis`. -/
structure ScenarioCfg where
  name : String
  description : String
  large_cap_return : ℚ
  mid_cap_return : ℚ
  small_cap_return : ℚ
  gold_return : ℚ
  crypto_return : ℚ
  probability : ℚ

/-- The fixed four-scenario set of the source, in dictionary insertion
order. -/
def scenario_config : List ScenarioCfg :=
  [{ name := "Base Case",
     description := "Moderate growth, inflation around 2-3 percent, gradual interest rate changes.",
     large_cap_return := 8/100, mid_cap_return := 10/100,
     small_cap_return := 12/100, gold_return := 3/100,
     crypto_return := 10/100, probability := 50/100 },
   { name := "High Inflation",
     description := "Elevated inflation (4-6 percent), aggressive interest rate hikes, pressure on growth stocks.",
     large_cap_return := 6/100, mid_cap_return := 7/100,
     small_cap_return := 8/100, gold_return := 10/100,
     crypto_return := 5/100, probability := 20/100 },
   { name := "Recession",
     description := "Economic contraction, declining corporate profits, higher volatility.",
     large_cap_return := -5/100, mid_cap_return := -10/100,
     small_cap_return := -15/100, gold_return := 8/100,
     crypto_return := -20/100, probability := 15/100 },
   { name := "Bull Market",
     description := "Strong economic growth, low unemployment, favorable corporate conditions.",
     large_cap_return := 12/100, mid_cap_return := 15/100,
     small_cap_return := 20/100, gold_return := 1/100,
     crypto_return := 25/100, probability := 15/100 }]

/-- Read of `scenario_config[name][return_key]` for the five return keys. -/
def returnFor (cfg : ScenarioCfg) (key : String) : ℚ :=
  if key = "large_cap_return" then cfg.large_cap_return
  else if key = "mid_cap_return" then cfg.mid_cap_return
  else if key = "small_cap_return" then cfg.small_cap_return
  else if key = "gold_return" then cfg.gold_return
  else cfg.crypto_return

/-- The `category_mapping` dictionary of the scenario engine. -/
def category_mapping : List (String × String) :=
  [("Large Cap", "large_cap_return"), ("Mid Cap", "mid_cap_return"),
   ("Small Cap", "small_cap_return"), ("Gold", "gold_return"),
   ("ETFs/Crypto", "crypto_return")]

/-- Per-category scenario return:
`category_mapping.get(category, "large_cap_return")` then the rate of that
scenario for that key. -/
def scenCoeff (cfg : ScenarioCfg) (c : String) : ℚ :=
  returnFor cfg ((category_mapping.lookup c).getD "large_cap_return")

/-- Python `b ** n` for a float base and an int exponent: raises
ZeroDivisionError for a zero base and negative exponent, otherwise the
exact integer power. -/
def pyzpow (b : ℚ) (n : ℤ) : Except String ℚ :=
  if b = 0 ∧ n < 0 then .error "ZeroDivisionError" else .ok (b ^ n)

/-- Python `q ** e` for float operands: complex (blowing up with a
TypeError at the following ordered comparison, modelled at the power
itself) for a negative base and non-integral exponent, ZeroDivisionError
for a zero base and negative exponent, otherwise the real power. -/
noncomputable def pyfracpow (q e : ℚ) : Except String ℝ :=
  if q < 0 ∧ e.den ≠ 1 then .error "TypeError"
  else if q = 0 ∧ e < 0 then .error "ZeroDivisionError"
  else .ok ((q : ℝ) ^ ((e : ℚ) : ℝ))

/-- One entry of the `scenario_results` dictionary. -/
structure ScenRes where
  name : String
  annual_return : ℚ
  final_value : ℚ
  probability : ℚ

/-- Python `min(items, key=final value)`: the first entry attaining the
minimum, none on an empty list (where Python raises ValueError). -/
def minByFinal (l : List ScenRes) : Option ScenRes :=
  l.foldl (fun acc s =>
    match acc with
    | none => some s
    | some m => if s.final_value < m.final_value then some s else some m) none

/-- One formatted scenario of the `scenarios` list shown to the UI (the
`impact` f-string is elided; the three per-scenario recommendation
messages are kept as abridged markers since no claim reads their text). -/
structure FmtScenario where
  name : String
  description : String
  resilience : String
  recommendations : List String

/-- Formatting of one configured scenario for the UI list. -/
def fmtScenario (cfg : ScenarioCfg) : FmtScenario :=
  { name := cfg.name, description := cfg.description,
    resilience :=
      if cfg.name = "Base Case" ∨ cfg.name = "Bull Market" then "High"
      else if cfg.name = "High Inflation" then "Medium" else "Low",
    recommendations :=
      ["prepare by adjusting asset allocation",
       if cfg.large_cap_return > 0 then "consider increasing exposure to growth stocks"
       else "consider decreasing exposure to growth stocks",
       "monitor economic indicators closely"] }

/-- Pure value of one scenario result entry (the value the per-scenario
loop produces when nothing raises): weighted annual return,
`final_value = total * (1 + weightedReturn) ** horizon`, and the
probability of the scenario. -/
def scenResOf (total : ℚ) (groups : List (String × ℚ)) (h : ℤ)
    (cfg : ScenarioCfg) : ScenRes :=
  { name := cfg.name,
    annual_return := weightedSumPure (scenCoeff cfg) total groups,
    final_value :=
      total * (1 + weightedSumPure (scenCoeff cfg) total groups) ^ h,
    probability := cfg.probability }

/-- Python `min(scenario_results.items(), key=final value)` as used by the
recommendation block: ValueError on an empty collection. -/
def worstOf (results : List ScenRes) : Except String ScenRes :=
  match minByFinal results with
  | some w => .ok w
  | none => .error "ValueError"

/-- Result shape of
`advanced_analytics.generate_economic_scenario_analysis`; the
`scenario_results` and `expected_value` keys are absent from the fallback
dictionary of the source, hence `Option`. -/
structure EconResult where
  scenarios : List FmtScenario
  scenario_results : Option (List ScenRes)
  expected_value : Option ℚ
  recommendations : List String

/-- Body of the `try:` block of
`advanced_analytics.generate_economic_scenario_analysis`, parametrised by
the scenario set: formatted scenarios, per-scenario weighted returns and
final values `total * (1 + weightedReturn) ** horizon`, the
probability-weighted expected value, the worst-scenario and
probability-based recommendation checks, and the annualized-return check
`(expected/total) ** (1/horizon) - 1 < 0.05` (whose divisions raise on a
zero total or zero horizon).  Pandas/plotly chart construction is elided:
in the source it is integer-power arithmetic plus a chart call wrapped in
its own inner try/except, so it cannot change control flow. -/
noncomputable def econScenarioCore (cfgs : List ScenarioCfg)
    (portfolio : List Holding) (time_horizon_years : ℤ) :
    Except String EconResult := do
  let scenarios := cfgs.map fmtScenario
  let total_value := (portfolio.map (·.amount)).sum
  let grouped := groupAmounts portfolio
  let results ← mapME (fun cfg => do
    let wr ← weightedSumE (scenCoeff cfg) total_value grouped
    let pw ← pyzpow (1 + wr) time_horizon_years
    pure ({ name := cfg.name, annual_return := wr,
            final_value := total_value * pw,
            probability := cfg.probability } : ScenRes)) cfgs
  let expected_value := (results.map (fun r => r.final_value * r.probability)).sum
  let worst ← worstOf results
  let worst_change ← pydiv (worst.final_value - total_value) total_value
  let recs1 : List String :=
    if worst_change < -(2/10) then
      ["consider adding more defensive assets"] else []
  let recs2 := recs1 ++
    (match results.find? (fun r => r.name = "Recession") with
     | some r => if r.probability > 1/10 then
         ["consider increasing allocation to defensive sectors and gold"] else []
     | none => [])
  let recs3 := recs2 ++
    (match results.find? (fun r => r.name = "High Inflation") with
     | some r => if r.probability > 1/10 then
         ["consider adding TIPS, commodities, or real estate"] else []
     | none => [])
  let q ← pydiv expected_value total_value
  let e ← pydiv 1 (time_horizon_years : ℚ)
  let avgpow ← pyfracpow q e
  let recommendations := recs3 ++
    (if avgpow - 1 < 5/100 then
      ["consider reviewing your asset allocation"] else [])
  pure { scenarios := scenarios, scenario_results := some results,
         expected_value := some expected_value,
         recommendations := recommendations }

/-- The `except Exception:` fallback dictionary of
`generate_economic_scenario_analysis`: a single Error scenario and one
fixed recommendation. -/
def econFallback (msg : String) : EconResult :=
  { scenarios := [{ name := "Error",
                    description := "Error generating economic scenarios: " ++ msg,
                    resilience := "Unknown",
                    recommendations := ["Please try again with a valid portfolio"] }],
    scenario_results := none, expected_value := none,
    recommendations := ["Try again with a revised portfolio."] }

/-- Embedding of `advanced_analytics.generate_economic_scenario_analysis`:
the whole body runs inside `try: ... except Exception:`, so any raised
exception is converted to the structured fallback result. -/
noncomputable def generate_economic_scenario_analysis
    (portfolio : List Holding) (time_horizon_years : ℤ) : EconResult :=
  match econScenarioCore scenario_config portfolio time_horizon_years with
  | .ok r => r
  | .error msg => econFallback msg

/-- Annualized portfolio return
`(1 + portfolio_daily_return) ** 252 - 1` of
`advanced_analytics.calculate_modern_portfolio_theory_metrics`. -/
def mpt_portfolio_return (portfolio_daily_return : ℚ) : ℚ :=
  (1 + portfolio_daily_return) ^ (252 : ℕ) - 1

/-- The Treynor step of
`calculate_modern_portfolio_theory_metrics`:
`(portfolio_return - risk_free_rate) / portfolio_beta if portfolio_beta != 0
else None` — the division is guarded by the beta test. -/
def mpt_treynor (portfolio_return risk_free_rate portfolio_beta : ℚ) :
    Option ℚ :=
  if portfolio_beta ≠ 0 then
    some ((portfolio_return - risk_free_rate) / portfolio_beta)
  else none

/-- Concrete two-holding portfolio with positive amounts, used as a
witness input. -/
def posPortfolio : List Holding :=
  [{ name := "A", category := "Large Cap", amount := 100 },
   { name := "B", category := "Gold", amount := 300 }]

/-- Concrete portfolio containing a negative amount, used as a
counterexample input. -/
def negPortfolio : List Holding :=
  [{ name := "A", category := "Large Cap", amount := -100 },
   { name := "B", category := "Gold", amount := 300 }]

/-- Concrete single-holding portfolio: 10000 in Large Cap, used by the
round-trip check. -/
def singleLargeCap : List Holding :=
  [{ name := "S", category := "Large Cap", amount := 10000 }]

/-- Concrete current-allocation percentage map, used as a witness
input. -/
def wCurrent : List (String × ℚ) := [("Large Cap", 25), ("Gold", 75)]

/-- Concrete target-allocation map (the Medium Risk row), used as a
witness input. -/
def wTarget : List (String × ℚ) :=
  [("Large Cap", 30), ("Mid Cap", 30), ("Small Cap", 25), ("Gold", 10),
   ("ETFs/Crypto", 5)]

/-! Helper lemmas about the grouping fold and the weighted-sum loops. -/

theorem addAmount_snd_sum (acc : List (String × ℚ)) (c : String) (a : ℚ) :
    ((addAmount acc c a).map Prod.snd).sum = (acc.map Prod.snd).sum + a := by
  induction acc with
  | nil => simp [addAmount]
  | cons hd t ih =>
      obtain ⟨c', a'⟩ := hd
      by_cases h : c' = c
      · simp [addAmount, h]; ring
      · simp [addAmount, h, ih]; ring

theorem groupAmounts_snd_sum_aux (p : List Holding) :
    ∀ acc : List (String × ℚ),
      (((p.foldl (fun acc i => addAmount acc i.category i.amount) acc)).map
        Prod.snd).sum = (acc.map Prod.snd).sum + (p.map (·.amount)).sum := by
  induction p with
  | nil => intro acc; simp
  | cons hd t ih =>
      intro acc
      simp only [List.foldl_cons, List.map_cons, List.sum_cons]
      rw [ih, addAmount_snd_sum]
      ring

/-- Grouping preserves the total: the grouped per-category amounts sum to
the sum of the holding amounts. -/
theorem groupAmounts_snd_sum (p : List Holding) :
    ((groupAmounts p).map Prod.snd).sum = (p.map (·.amount)).sum := by
  have h := groupAmounts_snd_sum_aux p []
  simpa [groupAmounts] using h

theorem addAmount_nonneg {a : ℚ} (acc : List (String × ℚ)) (c : String)
    (hacc : ∀ x ∈ acc, 0 ≤ x.2) (ha : 0 ≤ a) :
    ∀ x ∈ addAmount acc c a, 0 ≤ x.2 := by
  induction acc with
  | nil => simpa [addAmount] using ha
  | cons hd t ih =>
      obtain ⟨c', a'⟩ := hd
      by_cases h : c' = c
      · intro x hx
        rw [addAmount, if_pos h] at hx
        rcases List.mem_cons.mp hx with hx1 | hx1
        · subst hx1
          exact add_nonneg (hacc (c', a') (by simp)) ha
        · exact hacc x (List.mem_cons_of_mem _ hx1)
      · intro x hx
        rw [addAmount, if_neg h] at hx
        rcases List.mem_cons.mp hx with hx1 | hx1
        · subst hx1; exact hacc (c', a') (by simp)
        · exact ih (fun y hy => hacc y (List.mem_cons_of_mem _ hy)) x hx1

theorem groupAmounts_nonneg_aux (p : List Holding)
    (hp : ∀ i ∈ p, 0 ≤ i.amount) :
    ∀ acc : List (String × ℚ), (∀ x ∈ acc, 0 ≤ x.2) →
      ∀ x ∈ p.foldl (fun acc i => addAmount acc i.category i.amount) acc,
        0 ≤ x.2 := by
  induction p with
  | nil => intro acc hacc; simpa using hacc
  | cons hd t ih =>
      intro acc hacc
      simp only [List.foldl_cons]
      exact ih (fun i hi => hp i (List.mem_cons_of_mem _ hi)) _
        (addAmount_nonneg acc hd.category hacc (hp hd (by simp)))

/-- Grouping preserves nonnegativity of amounts. -/
theorem groupAmounts_nonneg {p : List Holding}
    (hp : ∀ i ∈ p, 0 ≤ i.amount) :
    ∀ x ∈ groupAmounts p, 0 ≤ x.2 :=
  groupAmounts_nonneg_aux p hp [] (by simp)

theorem ok_bind {α β : Type} (a : α) (f : α → Except String β) :
    (Except.ok a >>= f) = f a := rfl

theorem error_bind {α β : Type} (e : String) (f : α → Except String β) :
    ((Except.error e : Except String α) >>= f) = .error e := rfl

theorem mapME_nil {α β : Type} (f : α → Except String β) :
    mapME f [] = .ok [] := rfl

theorem mapME_cons {α β : Type} (f : α → Except String β) (a : α)
    (t : List α) :
    mapME f (a :: t)
      = (f a >>= fun b => mapME f t >>= fun bs => .ok (b :: bs)) := rfl

/-- When every element maps to an `.ok` value, `mapME` returns the list of
those values. -/
theorem mapME_ok {α β : Type} {f : α → Except String β} {g : α → β}
    {l : List α} (h : ∀ a ∈ l, f a = .ok (g a)) :
    mapME f l = .ok (l.map g) := by
  induction l with
  | nil => rfl
  | cons hd t ih =>
      rw [mapME_cons, h hd (by simp), ok_bind,
        ih (fun a ha => h a (List.mem_cons_of_mem _ ha)), ok_bind]
      simp

theorem wsStep_ok (coeff : String → ℚ) {total : ℚ} (htotal : total ≠ 0)
    (acc : ℚ) (ca : String × ℚ) :
    wsStep coeff total acc ca = .ok (acc + ca.2 / total * coeff ca.1) := by
  rw [wsStep, pydiv, if_neg htotal, ok_bind]; rfl

theorem weightedSumE_ok_aux (coeff : String → ℚ) {total : ℚ}
    (htotal : total ≠ 0) (groups : List (String × ℚ)) :
    ∀ init : ℚ,
      groups.foldlM (wsStep coeff total) init
      = .ok (init + weightedSumPure coeff total groups) := by
  induction groups with
  | nil => intro init; simp [weightedSumPure]; rfl
  | cons hd t ih =>
      intro init
      rw [show List.foldlM (wsStep coeff total) init (hd :: t)
            = (wsStep coeff total init hd >>= fun s =>
                List.foldlM (wsStep coeff total) s t) from rfl,
        wsStep_ok coeff htotal, ok_bind, ih]
      simp only [weightedSumPure, List.map_cons, List.sum_cons]
      rw [add_assoc]

/-- When the total is non-zero, the weighted-sum loop returns the pure
weighted sum. -/
theorem weightedSumE_ok (coeff : String → ℚ) {total : ℚ}
    (htotal : total ≠ 0) (groups : List (String × ℚ)) :
    weightedSumE coeff total groups
      = .ok (weightedSumPure coeff total groups) := by
  have h := weightedSumE_ok_aux coeff htotal groups 0
  simpa [weightedSumE] using h

theorem sum_map_div_mul (groups : List (String × ℚ)) (T k : ℚ) :
    (groups.map (fun ca => ca.2 / T * k)).sum
      = (groups.map Prod.snd).sum / T * k := by
  induction groups with
  | nil => simp
  | cons hd t ih => simp [ih]; ring

/-- Expected-return coefficients are nonnegative for every risk-profile
string and category. -/
theorem ret_coeff_nonneg (rp c : String) :
    0 ≤ tableCoeff (get_expected_return_rates rp) c := by
  unfold get_expected_return_rates
  split_ifs <;>
    (simp only [tableCoeff, alookup, List.lookup]
     repeat' split
     all_goals norm_num)

/-- Expected-return coefficients are at most 0.18 for every risk-profile
string and category. -/
theorem ret_coeff_le (rp c : String) :
    tableCoeff (get_expected_return_rates rp) c ≤ 18/100 := by
  unfold get_expected_return_rates
  split_ifs <;>
    (simp only [tableCoeff, alookup, List.lookup]
     repeat' split
     all_goals norm_num)

/-- Volatility coefficients are nonnegative for every risk-profile string
and category. -/
theorem vol_coeff_nonneg (rp c : String) :
    0 ≤ tableCoeff (get_volatility_estimates rp) c := by
  unfold get_volatility_estimates
  split_ifs <;>
    (simp only [tableCoeff, alookup, List.lookup]
     repeat' split
     all_goals norm_num)

/-- Volatility coefficients are at most 0.35 for every risk-profile string
and category. -/
theorem vol_coeff_le (rp c : String) :
    tableCoeff (get_volatility_estimates rp) c ≤ 35/100 := by
  unfold get_volatility_estimates
  split_ifs <;>
    (simp only [tableCoeff, alookup, List.lookup]
     repeat' split
     all_goals norm_num)

/-- Scenario return coefficients of the fixed scenario set lie in
[-0.20, 0.25] for every category. -/
theorem scenCoeff_bounds :
    ∀ cfg ∈ scenario_config, ∀ c : String,
      -(20/100) ≤ scenCoeff cfg c ∧ scenCoeff cfg c ≤ 25/100 := by
  intro cfg hcfg c
  fin_cases hcfg <;>
    (simp only [scenCoeff, returnFor, category_mapping, List.lookup]
     repeat' split
     all_goals norm_num)

/-- Scenario probabilities of the fixed scenario set are nonnegative. -/
theorem scenario_config_prob_nonneg :
    ∀ cfg ∈ scenario_config, 0 ≤ cfg.probability := by
  intro cfg hcfg
  fin_cases hcfg <;> norm_num

/-- Lower and upper bounds for the pure weighted sum when the grouped
amounts are nonnegative and sum to the (positive) total and the
per-category coefficients lie in an interval. -/
theorem weightedSumPure_bounds (coeff : String → ℚ) {total : ℚ} {lo hi : ℚ}
    (h0 : 0 < total) (groups : List (String × ℚ))
    (hnn : ∀ x ∈ groups, 0 ≤ x.2)
    (hsum : (groups.map Prod.snd).sum = total)
    (hlo : ∀ c, lo ≤ coeff c) (hhi : ∀ c, coeff c ≤ hi) :
    lo ≤ weightedSumPure coeff total groups
      ∧ weightedSumPure coeff total groups ≤ hi := by
  constructor
  · have hpt : ∀ ca ∈ groups, ca.2 / total * lo ≤ ca.2 / total * coeff ca.1 := by
      intro ca hca
      exact mul_le_mul_of_nonneg_left (hlo ca.1)
        (div_nonneg (hnn ca hca) h0.le)
    have hle := List.sum_le_sum hpt
    calc lo = (groups.map Prod.snd).sum / total * lo := by
              rw [hsum]; field_simp
      _ = (groups.map (fun ca => ca.2 / total * lo)).sum := by
              rw [sum_map_div_mul]
      _ ≤ (groups.map (fun ca => ca.2 / total * coeff ca.1)).sum := hle
      _ = weightedSumPure coeff total groups := rfl
  · have hpt : ∀ ca ∈ groups, ca.2 / total * coeff ca.1 ≤ ca.2 / total * hi := by
      intro ca hca
      exact mul_le_mul_of_nonneg_left (hhi ca.1)
        (div_nonneg (hnn ca hca) h0.le)
    have hle := List.sum_le_sum hpt
    calc weightedSumPure coeff total groups
        ≤ (groups.map (fun ca => ca.2 / total * hi)).sum := hle
      _ = (groups.map Prod.snd).sum / total * hi := by rw [sum_map_div_mul]
      _ = hi := by rw [hsum]; field_simp

/-! Claim theorems. -/

/-- C9: when the computed portfolio beta is 0, the Treynor step of
`calculate_modern_portfolio_theory_metrics` yields None and performs no
division; the division `(portfolio_return - risk_free) / portfolio_beta`
is performed exactly when the beta is nonzero. -/
theorem C9_treynor_guarded (pdr rf b : ℚ) :
    (b = 0 → mpt_treynor (mpt_portfolio_return pdr) rf b = none) ∧
    (b ≠ 0 → mpt_treynor (mpt_portfolio_return pdr) rf b
        = some ((mpt_portfolio_return pdr - rf) / b)) := by
  constructor
  · intro h; simp [mpt_treynor, h]
  · intro h; simp [mpt_treynor, h]

/-- Witness for C9 at daily return 0.001, risk-free 0.04, beta 0 and
beta 2. -/
theorem C9_treynor_guarded_witness :
    mpt_treynor (mpt_portfolio_return (1/1000)) (4/100) 0 = none ∧
    mpt_treynor (mpt_portfolio_return (1/1000)) (4/100) 2
      = some ((mpt_portfolio_return (1/1000) - 4/100) / 2) :=
  ⟨(C9_treynor_guarded (1/1000) (4/100) 0).1 rfl,
   (C9_treynor_guarded (1/1000) (4/100) 2).2 (by norm_num)⟩

/-- C4 counterexample: for the unrecognized risk-profile string
"Aggressive Growth", `get_expected_return_rates` returns the High Risk
table, which differs from the table returned for
"Medium Risk (Balanced)" — so the claim that all three lookups fall back
to Medium is false. -/
theorem C4_counterexample :
    get_expected_return_rates "Aggressive Growth"
      ≠ get_expected_return_rates "Medium Risk (Balanced)" := by
  rw [get_expected_return_rates, if_neg (by decide), if_neg (by decide),
    get_expected_return_rates, if_neg (by decide), if_pos (by decide)]
  simp only [ne_eq, List.cons.injEq, Prod.mk.injEq, not_and]
  intro h
  norm_num at h

/-- C4 amended: `get_risk_profile_allocation` does fall back to the
Medium table for every string other than its three exact keys, but
`get_expected_return_rates` and `get_volatility_estimates` fall back to
their High Risk tables for every string containing neither "Low Risk" nor
"Medium Risk". -/
theorem C4_amended (rp : String) :
    (rp ≠ "Low Risk (Conservative)" → rp ≠ "Medium Risk (Balanced)" →
     rp ≠ "High Risk (Aggressive)" →
     get_risk_profile_allocation rp
       = get_risk_profile_allocation "Medium Risk (Balanced)") ∧
    (containsB rp "Low Risk" = false → containsB rp "Medium Risk" = false →
     get_expected_return_rates rp
         = get_expected_return_rates "High Risk (Aggressive)" ∧
       get_volatility_estimates rp
         = get_volatility_estimates "High Risk (Aggressive)") := by
  constructor
  · intro h1 h2 h3
    rw [get_risk_profile_allocation, if_neg h1, if_neg h2, if_neg h3]
    rfl
  · intro h1 h2
    constructor
    · rw [get_expected_return_rates, if_neg (by simp [h1]),
        if_neg (by simp [h2])]
      rfl
    · rw [get_volatility_estimates, if_neg (by simp [h1]),
        if_neg (by simp [h2])]
      rfl

/-- Witness for C4 amended at the unrecognized string
"Aggressive Growth". -/
theorem C4_amended_witness :
    get_risk_profile_allocation "Aggressive Growth"
        = get_risk_profile_allocation "Medium Risk (Balanced)" ∧
      get_expected_return_rates "Aggressive Growth"
        = get_expected_return_rates "High Risk (Aggressive)" ∧
      get_volatility_estimates "Aggressive Growth"
        = get_volatility_estimates "High Risk (Aggressive)" :=
  ⟨(C4_amended "Aggressive Growth").1 (by decide) (by decide) (by decide),
   (C4_amended "Aggressive Growth").2 (by decide) (by decide)⟩

/-- Evaluation of `analyze_portfolio` on a non-empty portfolio whose
total is nonzero: the percentage map succeeds and each grouped amount is
converted to `amount / total * 100`. -/
theorem analyze_portfolio_ok (p : List Holding) (rp : String)
    (hne : p ≠ []) (htotal : (p.map (·.amount)).sum ≠ 0) :
    analyze_portfolio p rp = .ok
      { current_allocation := (groupAmounts p).map
          (fun ca => (ca.1, ca.2 / (p.map (·.amount)).sum * 100)),
        target_allocation := get_risk_profile_allocation rp } := by
  have hmap : mapME (fun ca => do
        let w ← pydiv ca.2 ((p.map (·.amount)).sum)
        pure (ca.1, w * 100)) (groupAmounts p)
      = .ok ((groupAmounts p).map
          (fun ca => (ca.1, ca.2 / (p.map (·.amount)).sum * 100))) := by
    apply mapME_ok
    intro ca _
    rw [pydiv, if_neg htotal, ok_bind]
    rfl
  rw [analyze_portfolio, if_neg hne]
  show (mapME (fun ca => do
      let w ← pydiv ca.2 ((p.map (·.amount)).sum)
      pure (ca.1, w * 100)) (groupAmounts p) >>= fun pct =>
      pure ({ current_allocation := pct,
              target_allocation := get_risk_profile_allocation rp }
            : AnalysisResult)) = _
  rw [hmap, ok_bind]
  rfl

/-- C1: for a non-empty portfolio in which every holding has a positive
amount, `analyze_portfolio` succeeds and the current-allocation
percentages sum to exactly 100 (hence to 100 within the claimed 1e-9
tolerance). -/
theorem C1_weights_sum_100 (p : List Holding) (rp : String)
    (hne : p ≠ []) (hpos : ∀ i ∈ p, 0 < i.amount) :
    ∃ r, analyze_portfolio p rp = .ok r ∧
      (r.current_allocation.map Prod.snd).sum = 100 := by
  have htotal : 0 < (p.map (·.amount)).sum := by
    apply List.sum_pos
    · intro x hx
      obtain ⟨i, hi, hix⟩ := List.mem_map.mp hx
      exact hix ▸ hpos i hi
    · simpa using hne
  refine ⟨_, analyze_portfolio_ok p rp hne htotal.ne', ?_⟩
  rw [List.map_map]
  have hcomp : (Prod.snd ∘ fun ca : String × ℚ =>
      (ca.1, ca.2 / (p.map (·.amount)).sum * 100))
      = fun ca : String × ℚ => ca.2 / (p.map (·.amount)).sum * 100 := rfl
  rw [hcomp, sum_map_div_mul, groupAmounts_snd_sum]
  field_simp

theorem alookup_getD_nonneg {l : List (String × ℚ)}
    (h : ∀ x ∈ l, 0 ≤ x.2) (c : String) : 0 ≤ (alookup l c).getD 0 := by
  induction l with
  | nil => simp [alookup, List.lookup]
  | cons hd t ih =>
      obtain ⟨k, v⟩ := hd
      rw [alookup, List.lookup]
      cases hbeq : (c == k) with
      | false =>
          simp only [hbeq]
          exact ih (fun x hx => h x (List.mem_cons_of_mem _ hx))
      | true =>
          simp only [hbeq, Option.getD_some]
          exact h (k, v) (by simp)

/-- Characterization of the rebalance loop body for a nonnegative current
percentage: the clamp `if pct > 0 then total * pct/100 else 0` coincides
with the plain formula `total * pct/100`. -/
theorem recActionFor_eq (T : ℚ) (current : List (String × ℚ))
    (ct : String × ℚ) (hpct : 0 ≤ (alookup current ct.1).getD 0) :
    recActionFor T current ct =
      (if |T * (ct.2 / 100) - T * ((alookup current ct.1).getD 0 / 100)|
          > T * (1/100) then
        some { category := ct.1,
               action_type :=
                 if T * (ct.2 / 100)
                     - T * ((alookup current ct.1).getD 0 / 100) > 0
                 then "increase" else "decrease",
               current_amount := T * ((alookup current ct.1).getD 0 / 100),
               target_amount := T * (ct.2 / 100),
               difference := T * (ct.2 / 100)
                 - T * ((alookup current ct.1).getD 0 / 100) }
      else none) := by
  have hclamp : (if (alookup current ct.1).getD 0 > 0 then
      T * ((alookup current ct.1).getD 0 / 100) else 0)
      = T * ((alookup current ct.1).getD 0 / 100) := by
    by_cases h : (alookup current ct.1).getD 0 > 0
    · rw [if_pos h]
    · have h0 : (alookup current ct.1).getD 0 = 0 :=
        le_antisymm (not_lt.mp h) hpct
      rw [if_neg h, h0]; ring
  simp only [recActionFor]
  rw [hclamp]
  split_ifs <;> rfl

/-- C3: for every portfolio with positive total investment and every
analysis result whose current percentages are nonnegative (as
`analyze_portfolio` produces for valid holdings) and whose target
categories are distinct (a Python dict), `get_allocation_recommendation`
emits an action for a target category exactly when
`|targetAmount - currentAmount| > 1 percent` of the total, the emitted
difference equals `targetAmount - currentAmount` with
`currentAmount = total * currentPct/100` and
`targetAmount = total * targetPct/100`, and the action type is
"increase" exactly for a positive difference and "decrease" exactly for a
negative one. -/
theorem C3_rebalance (p : List Holding) (current target : List (String × ℚ))
    (htotal : 0 < (p.map (·.amount)).sum)
    (hcur : ∀ x ∈ current, 0 ≤ x.2)
    (hkeys : (target.map Prod.fst).Nodup) :
    ∀ ct ∈ target,
      ((∃ a ∈ (get_allocation_recommendation p
            { current_allocation := current,
              target_allocation := target }).actions, a.category = ct.1) ↔
        |(p.map (·.amount)).sum * (ct.2 / 100) - (p.map (·.amount)).sum
            * ((alookup current ct.1).getD 0 / 100)|
          > (p.map (·.amount)).sum * (1/100)) ∧
      ∀ a ∈ (get_allocation_recommendation p
            { current_allocation := current,
              target_allocation := target }).actions,
        a.category = ct.1 →
          a.difference = (p.map (·.amount)).sum * (ct.2 / 100)
              - (p.map (·.amount)).sum * ((alookup current ct.1).getD 0 / 100)
            ∧ (a.action_type = "increase" ↔ 0 < a.difference)
            ∧ (a.action_type = "decrease" ↔ a.difference < 0) := by
  intro ct hct
  have hpne : p ≠ [] := by
    intro h; rw [h] at htotal; simp at htotal
  have hactions : (get_allocation_recommendation p
      { current_allocation := current, target_allocation := target }).actions
      = target.filterMap (recActionFor ((p.map (·.amount)).sum) current) := by
    simp only [get_allocation_recommendation, if_neg hpne]
  have hcat : ∀ ct' : String × ℚ, ∀ a : RecAction,
      recActionFor ((p.map (·.amount)).sum) current ct' = some a →
      a.category = ct'.1 := by
    intro ct' a h
    rw [recActionFor_eq _ current ct' (alookup_getD_nonneg hcur ct'.1)] at h
    by_cases h1 : |(p.map (·.amount)).sum * (ct'.2 / 100)
        - (p.map (·.amount)).sum * ((alookup current ct'.1).getD 0 / 100)|
        > (p.map (·.amount)).sum * (1/100)
    · rw [if_pos h1] at h
      injection h with h2
      subst h2; rfl
    · rw [if_neg h1] at h
      exact Option.noConfusion h
  have hthresh : 0 < (p.map (·.amount)).sum * (1/100) := by positivity
  constructor
  · constructor
    · rintro ⟨a, ha, hacat⟩
      rw [hactions] at ha
      obtain ⟨ct', hct', hFa⟩ := List.mem_filterMap.mp ha
      have hc := hcat ct' a hFa
      have heq : ct' = ct :=
        List.inj_on_of_nodup_map hkeys hct' hct (by rw [← hc, hacat])
      subst heq
      rw [recActionFor_eq _ current ct'
        (alookup_getD_nonneg hcur ct'.1)] at hFa
      by_cases h1 : |(p.map (·.amount)).sum * (ct'.2 / 100)
          - (p.map (·.amount)).sum * ((alookup current ct'.1).getD 0 / 100)|
          > (p.map (·.amount)).sum * (1/100)
      · exact h1
      · rw [if_neg h1] at hFa
        exact Option.noConfusion hFa
    · intro hgt
      refine ⟨{ category := ct.1,
                action_type :=
                  if (p.map (·.amount)).sum * (ct.2 / 100)
                      - (p.map (·.amount)).sum
                        * ((alookup current ct.1).getD 0 / 100) > 0
                  then "increase" else "decrease",
                current_amount := (p.map (·.amount)).sum
                  * ((alookup current ct.1).getD 0 / 100),
                target_amount := (p.map (·.amount)).sum * (ct.2 / 100),
                difference := (p.map (·.amount)).sum * (ct.2 / 100)
                  - (p.map (·.amount)).sum
                    * ((alookup current ct.1).getD 0 / 100) }, ?_, rfl⟩
      rw [hactions]
      apply List.mem_filterMap.mpr
      refine ⟨ct, hct, ?_⟩
      rw [recActionFor_eq _ current ct (alookup_getD_nonneg hcur ct.1),
        if_pos hgt]
  · intro a ha hacat
    rw [hactions] at ha
    obtain ⟨ct', hct', hFa⟩ := List.mem_filterMap.mp ha
    have hc := hcat ct' a hFa
    have heq : ct' = ct :=
      List.inj_on_of_nodup_map hkeys hct' hct (by rw [← hc, hacat])
    subst heq
    rw [recActionFor_eq _ current ct'
      (alookup_getD_nonneg hcur ct'.1)] at hFa
    by_cases h1 : |(p.map (·.amount)).sum * (ct'.2 / 100)
        - (p.map (·.amount)).sum * ((alookup current ct'.1).getD 0 / 100)|
        > (p.map (·.amount)).sum * (1/100)
    swap
    · rw [if_neg h1] at hFa
      exact Option.noConfusion hFa
    rw [if_pos h1] at hFa
    injection hFa with h2
    subst h2
    refine ⟨rfl, ?_, ?_⟩
    · by_cases h2 : (p.map (·.amount)).sum * (ct'.2 / 100)
          - (p.map (·.amount)).sum * ((alookup current ct'.1).getD 0 / 100) > 0
      · simp only [if_pos h2]
        simp [h2]
      · simp only [if_neg h2]
        simp [h2]
    · have hne0 : (p.map (·.amount)).sum * (ct'.2 / 100)
          - (p.map (·.amount)).sum
            * ((alookup current ct'.1).getD 0 / 100) ≠ 0 := by
        intro h0
        rw [h0, abs_zero] at h1
        exact absurd h1 (not_lt.mpr hthresh.le)
      by_cases h2 : (p.map (·.amount)).sum * (ct'.2 / 100)
          - (p.map (·.amount)).sum * ((alookup current ct'.1).getD 0 / 100) > 0
      · simp only [if_pos h2]
        have hnneg : ¬ ((p.map (·.amount)).sum * (ct'.2 / 100)
            - (p.map (·.amount)).sum
              * ((alookup current ct'.1).getD 0 / 100) < 0) :=
          not_lt.mpr h2.le
        simp [hnneg]
      · simp only [if_neg h2]
        have hneg : (p.map (·.amount)).sum * (ct'.2 / 100)
            - (p.map (·.amount)).sum
              * ((alookup current ct'.1).getD 0 / 100) < 0 :=
          lt_of_le_of_ne (not_lt.mp h2) hne0
        simp [hneg]

/-- Witness for C3 at a concrete portfolio, analysis maps and the Large
Cap target entry. -/
theorem C3_rebalance_witness :
    ((∃ a ∈ (get_allocation_recommendation posPortfolio
          { current_allocation := wCurrent,
            target_allocation := wTarget }).actions,
        a.category = "Large Cap") ↔
      |(posPortfolio.map (·.amount)).sum * ((30:ℚ) / 100)
          - (posPortfolio.map (·.amount)).sum
            * ((alookup wCurrent "Large Cap").getD 0 / 100)|
        > (posPortfolio.map (·.amount)).sum * (1/100)) ∧
    ∀ a ∈ (get_allocation_recommendation posPortfolio
          { current_allocation := wCurrent,
            target_allocation := wTarget }).actions,
      a.category = "Large Cap" →
        a.difference = (posPortfolio.map (·.amount)).sum * ((30:ℚ) / 100)
            - (posPortfolio.map (·.amount)).sum
              * ((alookup wCurrent "Large Cap").getD 0 / 100)
          ∧ (a.action_type = "increase" ↔ 0 < a.difference)
          ∧ (a.action_type = "decrease" ↔ a.difference < 0) :=
  C3_rebalance posPortfolio wCurrent wTarget
    (by norm_num [posPortfolio])
    (by intro x hx; fin_cases hx <;> norm_num)
    (by simp [wTarget])
    ("Large Cap", 30) (by simp [wTarget])

/-- C7 counterexample: a portfolio holding a negative amount is not
rejected — `analyze_portfolio` returns a normal analysis in which the
negative holding contributes its full (negative) weight: the Large Cap
position of -100 out of a 200 total shows up as -50 percent.  No
InvalidHolding error path exists in the code. -/
theorem C7_counterexample :
    analyze_portfolio negPortfolio "Medium Risk (Balanced)"
    = .ok { current_allocation := [("Large Cap", -50), ("Gold", 150)],
            target_allocation :=
              get_risk_profile_allocation "Medium Risk (Balanced)" } := by
  rw [analyze_portfolio_ok _ _ (by simp [negPortfolio])
    (by norm_num [negPortfolio])]
  have hg : groupAmounts negPortfolio = [("Large Cap", -100), ("Gold", 300)] := by
    simp [negPortfolio, groupAmounts, addAmount]
  rw [hg]
  norm_num [negPortfolio]

/-- C7 amended: `analyze_portfolio` performs no amount validation — for
every non-empty portfolio whose total is nonzero (zero or negative
amounts included), it returns a normal analysis in which every grouped
amount, whatever its sign, contributes `amount / total * 100` to the
current allocation. -/
theorem C7_amended (p : List Holding) (rp : String) (hne : p ≠ [])
    (htotal : (p.map (·.amount)).sum ≠ 0) :
    ∃ r, analyze_portfolio p rp = .ok r ∧
      r.current_allocation = (groupAmounts p).map
        (fun ca => (ca.1, ca.2 / (p.map (·.amount)).sum * 100)) :=
  ⟨_, analyze_portfolio_ok p rp hne htotal, rfl⟩

/-- Witness for C7 amended at the counterexample portfolio. -/
theorem C7_amended_witness :
    ∃ r, analyze_portfolio negPortfolio "Medium Risk (Balanced)" = .ok r ∧
      r.current_allocation = (groupAmounts negPortfolio).map
        (fun ca => (ca.1,
          ca.2 / ((negPortfolio.map (·.amount)).sum) * 100)) :=
  C7_amended _ "Medium Risk (Balanced)" (by simp [negPortfolio])
    (by norm_num [negPortfolio])

theorem pypowM_ok {b : ℚ} (hb : 0 ≤ b) (m : ℕ) :
    pypowM b m = .ok ((b : ℝ) ^ ((m : ℝ) / 12)) := by
  rw [pypowM, if_neg (fun hcon => absurd hcon.1 (not_lt.mpr hb))]

theorem get?_map_range {α : Type} (f : ℕ → α) {n i : ℕ} (hi : i < n) :
    ((List.range n).map f).get? i = some (f i) := by
  rw [List.get?_map, List.get?_range hi]; rfl

theorem getLast?_map_range {α : Type} (f : ℕ → α) (n : ℕ) :
    ((List.range (n + 1)).map f).getLast? = some (f n) := by
  rw [List.range_succ, List.map_append]
  simp

/-- Full evaluation of `predict_portfolio_performance` when the weighted
sums succeed, the three compounding bases are nonnegative and the horizon
is nonnegative: the monthly series is the map of `bandAt` over the
`12h + 1` month grid, the snapshots are taken at the in-horizon year
marks, and the summary reads the last grid point. -/
theorem predict_ok (p : List Holding) (rp : String) (h : ℤ) (hh : 0 ≤ h)
    {wr vol : ℚ}
    (hwr : weightedSumE (tableCoeff (get_expected_return_rates rp))
        ((p.map (·.amount)).sum) (groupAmounts p) = .ok wr)
    (hvol : weightedSumE (tableCoeff (get_volatility_estimates rp))
        ((p.map (·.amount)).sum) (groupAmounts p) = .ok vol)
    (hbp : 0 ≤ 1 + wr - vol) (hbe : 0 ≤ 1 + wr) (hbo : 0 ≤ 1 + wr + vol) :
    predict_portfolio_performance p rp h = .ok
      { predictions := (([1, 3, 5] : List ℤ).filter (· ≤ h)).map (fun y =>
          { year := y,
            pessimistic := (bandAt ((p.map (·.amount)).sum) (1 + wr - vol)
              (1 + wr) (1 + wr + vol) (y * 12).toNat).pessimistic,
            expected := (bandAt ((p.map (·.amount)).sum) (1 + wr - vol)
              (1 + wr) (1 + wr + vol) (y * 12).toNat).expected,
            optimistic := (bandAt ((p.map (·.amount)).sum) (1 + wr - vol)
              (1 + wr) (1 + wr + vol) (y * 12).toNat).optimistic }),
        series := (List.range (h.toNat * 12 + 1)).map
          (bandAt ((p.map (·.amount)).sum) (1 + wr - vol) (1 + wr)
            (1 + wr + vol)),
        weighted_return := wr,
        portfolio_volatility := vol,
        expected_returns := get_expected_return_rates rp,
        risk_assessment := get_volatility_estimates rp,
        final_values := bandAt ((p.map (·.amount)).sum) (1 + wr - vol)
          (1 + wr) (1 + wr + vol) (h.toNat * 12) } := by
  have hband : ∀ m ∈ List.range (h.toNat * 12 + 1),
      (do
        let ev ← pypowM (1 + wr) m
        let pv ← pypowM (1 + wr - vol) m
        let ov ← pypowM (1 + wr + vol) m
        pure ({ pessimistic :=
                  max 0 ((((p.map (·.amount)).sum : ℚ) : ℝ) * pv),
                expected := (((p.map (·.amount)).sum : ℚ) : ℝ) * ev,
                optimistic := (((p.map (·.amount)).sum : ℚ) : ℝ) * ov }
              : BandPoint) : Except String BandPoint)
      = .ok (bandAt ((p.map (·.amount)).sum) (1 + wr - vol) (1 + wr)
          (1 + wr + vol) m) := by
    intro m _
    rw [pypowM_ok hbe, ok_bind, pypowM_ok hbp, ok_bind, pypowM_ok hbo,
      ok_bind]
    rfl
  have hseries := mapME_ok hband
  have hpred : ∀ y ∈ ([1, 3, 5] : List ℤ).filter (· ≤ h),
      predictionAt ((List.range (h.toNat * 12 + 1)).map
          (bandAt ((p.map (·.amount)).sum) (1 + wr - vol) (1 + wr)
            (1 + wr + vol))) y
      = .ok ({ year := y,
               pessimistic := (bandAt ((p.map (·.amount)).sum) (1 + wr - vol)
                 (1 + wr) (1 + wr + vol) (y * 12).toNat).pessimistic,
               expected := (bandAt ((p.map (·.amount)).sum) (1 + wr - vol)
                 (1 + wr) (1 + wr + vol) (y * 12).toNat).expected,
               optimistic := (bandAt ((p.map (·.amount)).sum) (1 + wr - vol)
                 (1 + wr) (1 + wr + vol) (y * 12).toNat).optimistic }
             : Prediction) := by
    intro y hy
    have hy12 : (y * 12).toNat < h.toNat * 12 + 1 := by
      rw [List.mem_filter] at hy
      have h1 : y ≤ h := by
        have := hy.2
        simpa using this
      omega
    rw [predictionAt, get?_map_range _ hy12]
  have hpreds := mapME_ok hpred
  have hlast : lastBand ((List.range (h.toNat * 12 + 1)).map
      (bandAt ((p.map (·.amount)).sum) (1 + wr - vol) (1 + wr)
        (1 + wr + vol)))
      = .ok (bandAt ((p.map (·.amount)).sum) (1 + wr - vol) (1 + wr)
          (1 + wr + vol) (h.toNat * 12)) := by
    rw [lastBand, getLast?_map_range]
  simp only [predict_portfolio_performance, if_pos hh, hwr, ok_bind, hvol,
    hseries, hpreds, hlast]
  rfl

/-- C2: for every non-empty portfolio with positive amounts, every risk
profile, and every positive integer horizon,
`predict_portfolio_performance` succeeds and at every monthly grid point
the bands satisfy pessimistic ≤ expected ≤ optimistic and
pessimistic ≥ 0. -/
theorem C2_projection_bands (p : List Holding) (rp : String) (h : ℤ)
    (hne : p ≠ []) (hpos : ∀ i ∈ p, 0 < i.amount) (hh : 1 ≤ h) :
    ∃ r, predict_portfolio_performance p rp h = .ok r ∧
      ∀ b ∈ r.series,
        b.pessimistic ≤ b.expected ∧ b.expected ≤ b.optimistic ∧
          0 ≤ b.pessimistic := by
  have htotal : 0 < (p.map (·.amount)).sum := by
    apply List.sum_pos
    · intro x hx
      obtain ⟨i, hi, hix⟩ := List.mem_map.mp hx
      exact hix ▸ hpos i hi
    · simpa using hne
  have hgnn : ∀ x ∈ groupAmounts p, 0 ≤ x.2 :=
    groupAmounts_nonneg (fun i hi => (hpos i hi).le)
  have hgsum : ((groupAmounts p).map Prod.snd).sum = (p.map (·.amount)).sum :=
    groupAmounts_snd_sum p
  have hwrB := weightedSumPure_bounds
    (tableCoeff (get_expected_return_rates rp)) htotal (groupAmounts p)
    hgnn hgsum (fun c => ret_coeff_nonneg rp c) (fun c => ret_coeff_le rp c)
  have hvolB := weightedSumPure_bounds
    (tableCoeff (get_volatility_estimates rp)) htotal (groupAmounts p)
    hgnn hgsum (fun c => vol_coeff_nonneg rp c) (fun c => vol_coeff_le rp c)
  have hwr := weightedSumE_ok (tableCoeff (get_expected_return_rates rp))
    htotal.ne' (groupAmounts p)
  have hvol := weightedSumE_ok (tableCoeff (get_volatility_estimates rp))
    htotal.ne' (groupAmounts p)
  have hbp : 0 ≤ 1 + weightedSumPure (tableCoeff (get_expected_return_rates rp))
      ((p.map (·.amount)).sum) (groupAmounts p)
      - weightedSumPure (tableCoeff (get_volatility_estimates rp))
        ((p.map (·.amount)).sum) (groupAmounts p) := by
    obtain ⟨hw0, _⟩ := hwrB
    obtain ⟨_, hv1⟩ := hvolB
    linarith
  have hbe : 0 ≤ 1 + weightedSumPure (tableCoeff (get_expected_return_rates rp))
      ((p.map (·.amount)).sum) (groupAmounts p) := by
    obtain ⟨hw0, _⟩ := hwrB
    linarith
  have hbo : 0 ≤ 1 + weightedSumPure (tableCoeff (get_expected_return_rates rp))
      ((p.map (·.amount)).sum) (groupAmounts p)
      + weightedSumPure (tableCoeff (get_volatility_estimates rp))
        ((p.map (·.amount)).sum) (groupAmounts p) := by
    obtain ⟨hw0, _⟩ := hwrB
    obtain ⟨hv0, _⟩ := hvolB
    linarith
  refine ⟨_, predict_ok p rp h (by omega) hwr hvol hbp hbe hbo, ?_⟩
  intro b hb
  obtain ⟨m, _, hbm⟩ := List.mem_map.mp hb
  subst hbm
  have hT : (0:ℝ) ≤ (((p.map (·.amount)).sum : ℚ) : ℝ) := by
    exact_mod_cast htotal.le
  have ht : (0:ℝ) ≤ (m : ℝ) / 12 := by positivity
  have hbpR : (0:ℝ) ≤ ((1 + weightedSumPure
      (tableCoeff (get_expected_return_rates rp)) ((p.map (·.amount)).sum)
        (groupAmounts p)
      - weightedSumPure (tableCoeff (get_volatility_estimates rp))
        ((p.map (·.amount)).sum) (groupAmounts p) : ℚ) : ℝ) := by
    exact_mod_cast hbp
  have hbeR : (0:ℝ) ≤ ((1 + weightedSumPure
      (tableCoeff (get_expected_return_rates rp)) ((p.map (·.amount)).sum)
        (groupAmounts p) : ℚ) : ℝ) := by
    exact_mod_cast hbe
  have hpe : ((1 + weightedSumPure
      (tableCoeff (get_expected_return_rates rp)) ((p.map (·.amount)).sum)
        (groupAmounts p)
      - weightedSumPure (tableCoeff (get_volatility_estimates rp))
        ((p.map (·.amount)).sum) (groupAmounts p) : ℚ) : ℝ)
      ≤ ((1 + weightedSumPure (tableCoeff (get_expected_return_rates rp))
        ((p.map (·.amount)).sum) (groupAmounts p) : ℚ) : ℝ) := by
    have hv0 := hvolB.1
    exact_mod_cast (by linarith : (1 + weightedSumPure
      (tableCoeff (get_expected_return_rates rp)) ((p.map (·.amount)).sum)
        (groupAmounts p)
      - weightedSumPure (tableCoeff (get_volatility_estimates rp))
        ((p.map (·.amount)).sum) (groupAmounts p) : ℚ)
      ≤ 1 + weightedSumPure (tableCoeff (get_expected_return_rates rp))
        ((p.map (·.amount)).sum) (groupAmounts p))
  have heo : ((1 + weightedSumPure
      (tableCoeff (get_expected_return_rates rp)) ((p.map (·.amount)).sum)
        (groupAmounts p) : ℚ) : ℝ)
      ≤ ((1 + weightedSumPure (tableCoeff (get_expected_return_rates rp))
        ((p.map (·.amount)).sum) (groupAmounts p)
        + weightedSumPure (tableCoeff (get_volatility_estimates rp))
        ((p.map (·.amount)).sum) (groupAmounts p) : ℚ) : ℝ) := by
    have hv0 := hvolB.1
    exact_mod_cast (by linarith : (1 + weightedSumPure
      (tableCoeff (get_expected_return_rates rp)) ((p.map (·.amount)).sum)
        (groupAmounts p) : ℚ)
      ≤ 1 + weightedSumPure (tableCoeff (get_expected_return_rates rp))
        ((p.map (·.amount)).sum) (groupAmounts p)
        + weightedSumPure (tableCoeff (get_volatility_estimates rp))
        ((p.map (·.amount)).sum) (groupAmounts p))
  refine ⟨?_, ?_, ?_⟩
  · apply max_le
    · exact mul_nonneg hT (Real.rpow_nonneg hbeR _)
    · exact mul_le_mul_of_nonneg_left
        (Real.rpow_le_rpow hbpR hpe ht) hT
  · exact mul_le_mul_of_nonneg_left (Real.rpow_le_rpow hbeR heo ht) hT
  · exact le_max_left 0 _

/-- Witness for C2 at a two-holding positive portfolio, Medium risk,
horizon one year. -/
theorem C2_projection_bands_witness :
    ∃ r, predict_portfolio_performance posPortfolio
        "Medium Risk (Balanced)" 1 = .ok r ∧
      ∀ b ∈ r.series,
        b.pessimistic ≤ b.expected ∧ b.expected ≤ b.optimistic ∧
          0 ≤ b.pessimistic :=
  C2_projection_bands posPortfolio "Medium Risk (Balanced)" 1
    (by simp [posPortfolio]) (by norm_num [posPortfolio]) le_rfl

/-- C8 counterexample: called on an empty portfolio with horizon 5,
`predict_portfolio_performance` does not return any InvalidInput error —
it returns a normal projection result with the full 61-point monthly
series (all values zero since the total is zero). -/
theorem C8_counterexample :
    ∃ r, predict_portfolio_performance [] "Medium Risk (Balanced)" 5
        = .ok r ∧ r.series.length = 61 := by
  refine ⟨_, predict_ok [] "Medium Risk (Balanced)" 5 (by norm_num)
    rfl rfl (by norm_num) (by norm_num) (by norm_num), ?_⟩
  simp

/-- C8 amended: `predict_portfolio_performance` performs no input
validation — an empty portfolio (with any nonnegative horizon, the
zero-horizon case included) produces a normal degenerate projection
result, and a negative horizon raises an uncaught IndexError when the
summary reads the last element of the empty monthly series; no
InvalidInput error exists. -/
theorem C8_amended (rp : String) (h : ℤ) :
    (0 ≤ h → ∃ r, predict_portfolio_performance [] rp h = .ok r) ∧
    (h < 0 → predict_portfolio_performance [] rp h
        = .error "IndexError") := by
  constructor
  · intro hh
    exact ⟨_, predict_ok [] rp h hh rfl rfl (by norm_num) (by norm_num)
      (by norm_num)⟩
  · intro hneg
    have hfilter : ([1, 3, 5] : List ℤ).filter (· ≤ h) = [] := by
      have h1 : ¬ ((1:ℤ) ≤ h) := by omega
      have h3 : ¬ ((3:ℤ) ≤ h) := by omega
      have h5 : ¬ ((5:ℤ) ≤ h) := by omega
      simp [List.filter, h1, h3, h5]
    simp only [predict_portfolio_performance, if_neg (not_le.mpr hneg)]
    rw [show weightedSumE (tableCoeff (get_expected_return_rates rp))
        ((([] : List Holding).map (·.amount)).sum) (groupAmounts [])
        = .ok 0 from rfl, ok_bind]
    rw [show weightedSumE (tableCoeff (get_volatility_estimates rp))
        ((([] : List Holding).map (·.amount)).sum) (groupAmounts [])
        = .ok 0 from rfl, ok_bind]
    rw [mapME_nil, ok_bind, hfilter, mapME_nil, ok_bind]
    rw [show lastBand [] = (.error "IndexError" : Except String BandPoint)
      from rfl, error_bind]

/-- Witness for C8 amended: a normal result at horizon 5 and an
IndexError at horizon -1, both on the empty portfolio. -/
theorem C8_amended_witness :
    (∃ r, predict_portfolio_performance [] "Low Risk (Conservative)" 5
        = .ok r) ∧
    predict_portfolio_performance [] "Low Risk (Conservative)" (-1)
        = .error "IndexError" :=
  ⟨(C8_amended "Low Risk (Conservative)" 5).1 (by norm_num),
   (C8_amended "Low Risk (Conservative)" (-1)).2 (by norm_num)⟩

/-- C6: for the single 10000 Large Cap holding under
"Medium Risk (Balanced)" at horizon 1 year, the one-year snapshot is
pessimistic 9600, expected 10800, optimistic 12000 — i.e.
10000·(1.08-0.12), 10000·1.08 and 10000·(1.08+0.12). -/
theorem C6_round_trip :
    ∃ r, predict_portfolio_performance singleLargeCap
        "Medium Risk (Balanced)" 1 = .ok r ∧
      r.predictions = [{ year := 1, pessimistic := 9600,
                         expected := 10800, optimistic := 12000 }] := by
  have htotal : (singleLargeCap.map (·.amount)).sum ≠ 0 := by
    norm_num [singleLargeCap]
  have hgroups : groupAmounts singleLargeCap = [("Large Cap", 10000)] := by
    simp [singleLargeCap, groupAmounts, addAmount]
  have hret : get_expected_return_rates "Medium Risk (Balanced)"
      = [("Large Cap", 8/100), ("Mid Cap", 10/100), ("Small Cap", 13/100),
         ("Gold", 4/100), ("ETFs/Crypto", 12/100)] := by
    rw [get_expected_return_rates, if_neg (by decide), if_pos (by decide)]
  have hvolt : get_volatility_estimates "Medium Risk (Balanced)"
      = [("Large Cap", 12/100), ("Mid Cap", 16/100), ("Small Cap", 20/100),
         ("Gold", 12/100), ("ETFs/Crypto", 25/100)] := by
    rw [get_volatility_estimates, if_neg (by decide), if_pos (by decide)]
  have hwrval : weightedSumPure
      (tableCoeff (get_expected_return_rates "Medium Risk (Balanced)"))
      ((singleLargeCap.map (·.amount)).sum) (groupAmounts singleLargeCap)
      = 8/100 := by
    rw [hgroups, hret]
    simp [weightedSumPure, tableCoeff, alookup, List.lookup, singleLargeCap]
  have hvolval : weightedSumPure
      (tableCoeff (get_volatility_estimates "Medium Risk (Balanced)"))
      ((singleLargeCap.map (·.amount)).sum) (groupAmounts singleLargeCap)
      = 12/100 := by
    rw [hgroups, hvolt]
    simp [weightedSumPure, tableCoeff, alookup, List.lookup, singleLargeCap]
  have hwr := weightedSumE_ok
    (tableCoeff (get_expected_return_rates "Medium Risk (Balanced)"))
    htotal (groupAmounts singleLargeCap)
  have hvol := weightedSumE_ok
    (tableCoeff (get_volatility_estimates "Medium Risk (Balanced)"))
    htotal (groupAmounts singleLargeCap)
  rw [hwrval] at hwr
  rw [hvolval] at hvol
  refine ⟨_, predict_ok singleLargeCap "Medium Risk (Balanced)" 1
    (by norm_num) hwr hvol (by norm_num) (by norm_num) (by norm_num), ?_⟩
  have hfil : ([1, 3, 5] : List ℤ).filter (· ≤ 1) = [1] := by decide
  rw [hfil, List.map_cons, List.map_nil]
  have hsum : ((((singleLargeCap.map (·.amount)).sum : ℚ)) : ℝ) = 10000 := by
    norm_num [singleLargeCap]
  simp only [bandAt, List.cons.injEq, Prediction.mk.injEq, and_true]
  refine ⟨trivial, ?_, ?_, ?_⟩ <;>
    · rw [hsum]
      rw [show ((((1:ℤ) * 12).toNat : ℕ) : ℝ) / 12 = 1 by
        rw [show ((1:ℤ) * 12).toNat = 12 from rfl]; norm_num]
      rw [Real.rpow_one]
      push_cast
      norm_num

theorem pyzpow_ok {b : ℚ} {n : ℤ} (hbn : ¬ (b = 0 ∧ n < 0)) :
    pyzpow b n = .ok (b ^ n) := by
  rw [pyzpow, if_neg hbn]

theorem pyfracpow_ok {q e : ℚ} (hq : 0 ≤ q) (he : 0 ≤ e) :
    pyfracpow q e = .ok ((q : ℝ) ^ ((e : ℚ) : ℝ)) := by
  rw [pyfracpow, if_neg (fun hcon => absurd hcon.1 (not_lt.mpr hq)),
    if_neg (fun hcon => absurd hcon.2 (not_lt.mpr he))]

theorem minByFinal_aux (l : List ScenRes) :
    ∀ acc : ScenRes, ∃ w,
      l.foldl (fun acc s =>
        match acc with
        | none => some s
        | some m => if s.final_value < m.final_value then some s
            else some m) (some acc) = some w := by
  induction l with
  | nil => intro acc; exact ⟨acc, rfl⟩
  | cons x t ih =>
      intro acc
      simp only [List.foldl_cons]
      by_cases hx : x.final_value < acc.final_value
      · rw [if_pos hx]; exact ih x
      · rw [if_neg hx]; exact ih acc

theorem worstOf_isSome {l : List ScenRes} (hl : l ≠ []) :
    ∃ w, worstOf l = .ok w := by
  cases l with
  | nil => exact absurd rfl hl
  | cons x t =>
      obtain ⟨w, hw⟩ := minByFinal_aux t x
      refine ⟨w, ?_⟩
      rw [worstOf, show minByFinal (x :: t) = some w from hw]

theorem bind_ok_elim {α β : Type} {e : Except String α}
    {f : α → Except String β} {r : β} (h : (e >>= f) = .ok r) :
    ∃ a, e = .ok a ∧ f a = .ok r := by
  cases e with
  | error msg =>
      rw [error_bind] at h
      exact absurd h (by simp)
  | ok a => exact ⟨a, rfl, by rwa [ok_bind] at h⟩

/-- A successful run of the scenario core always carries the formatted
list of the configured scenarios. -/
theorem econCore_ok_scenarios {cfgs : List ScenarioCfg} {p : List Holding}
    {h : ℤ} {r : EconResult}
    (hr : econScenarioCore cfgs p h = .ok r) :
    r.scenarios = cfgs.map fmtScenario := by
  simp only [econScenarioCore] at hr
  obtain ⟨results, h1, hr⟩ := bind_ok_elim hr
  obtain ⟨worst, h2, hr⟩ := bind_ok_elim hr
  obtain ⟨wc, h3, hr⟩ := bind_ok_elim hr
  obtain ⟨q, h4, hr⟩ := bind_ok_elim hr
  obtain ⟨e, h5, hr⟩ := bind_ok_elim hr
  obtain ⟨avg, h6, hr⟩ := bind_ok_elim hr
  exact (congrArg EconResult.scenarios (Except.ok.inj hr)).symm

/-- Full evaluation of the scenario core on a portfolio with nonnegative
amounts, positive total and a positive integer horizon, for any scenario
set with returns in [-0.20, 0.25] and nonnegative probabilities: every
step succeeds and the expected value is the probability-weighted sum of
the per-scenario final values. -/
theorem econCore_ok (cfgs : List ScenarioCfg) (p : List Holding) (h : ℤ)
    (hcne : cfgs ≠ [])
    (hcoef : ∀ cfg ∈ cfgs, ∀ c : String,
      -(20/100) ≤ scenCoeff cfg c ∧ scenCoeff cfg c ≤ 25/100)
    (hprob : ∀ cfg ∈ cfgs, 0 ≤ cfg.probability)
    (hpos : ∀ i ∈ p, 0 ≤ i.amount)
    (htotal : 0 < (p.map (·.amount)).sum) (hh : 1 ≤ h) :
    ∃ r, econScenarioCore cfgs p h = .ok r ∧
      r.scenarios = cfgs.map fmtScenario ∧
      r.scenario_results = some (cfgs.map
        (scenResOf ((p.map (·.amount)).sum) (groupAmounts p) h)) ∧
      r.expected_value = some (((cfgs.map
        (scenResOf ((p.map (·.amount)).sum) (groupAmounts p) h)).map
          (fun s => s.final_value * s.probability)).sum) := by
  have hgnn : ∀ x ∈ groupAmounts p, 0 ≤ x.2 := groupAmounts_nonneg hpos
  have hgsum : ((groupAmounts p).map Prod.snd).sum = (p.map (·.amount)).sum :=
    groupAmounts_snd_sum p
  have hres : ∀ cfg ∈ cfgs,
      (do
        let wr ← weightedSumE (scenCoeff cfg) ((p.map (·.amount)).sum)
          (groupAmounts p)
        let pw ← pyzpow (1 + wr) h
        pure ({ name := cfg.name, annual_return := wr,
                final_value := ((p.map (·.amount)).sum) * pw,
                probability := cfg.probability } : ScenRes)
        : Except String ScenRes)
      = .ok (scenResOf ((p.map (·.amount)).sum) (groupAmounts p) h cfg) := by
    intro cfg hcfg
    rw [weightedSumE_ok (scenCoeff cfg) htotal.ne' (groupAmounts p), ok_bind,
      pyzpow_ok (fun hcon => absurd hcon.2 (by omega)), ok_bind]
    rfl
  have hresults := mapME_ok hres
  have hfv : ∀ r ∈ cfgs.map
      (scenResOf ((p.map (·.amount)).sum) (groupAmounts p) h),
      0 ≤ r.final_value ∧ 0 ≤ r.probability := by
    intro r hr
    obtain ⟨cfg, hcfg, hrc⟩ := List.mem_map.mp hr
    subst hrc
    have hb := weightedSumPure_bounds (scenCoeff cfg) htotal (groupAmounts p)
      hgnn hgsum (fun c => (hcoef cfg hcfg c).1) (fun c => (hcoef cfg hcfg c).2)
    constructor
    · apply mul_nonneg htotal.le
      apply zpow_nonneg
      linarith [hb.1]
    · exact hprob cfg hcfg
  have hexp : 0 ≤ ((cfgs.map
      (scenResOf ((p.map (·.amount)).sum) (groupAmounts p) h)).map
        (fun r => r.final_value * r.probability)).sum := by
    apply List.sum_nonneg
    intro x hx
    obtain ⟨r, hrm, hrx⟩ := List.mem_map.mp hx
    subst hrx
    exact mul_nonneg (hfv r hrm).1 (hfv r hrm).2
  obtain ⟨w, hw⟩ := worstOf_isSome
    (l := cfgs.map (scenResOf ((p.map (·.amount)).sum) (groupAmounts p) h))
    (by simpa using hcne)
  have hwc : pydiv (w.final_value - (p.map (·.amount)).sum)
      ((p.map (·.amount)).sum)
      = .ok ((w.final_value - (p.map (·.amount)).sum)
          / ((p.map (·.amount)).sum)) := by
    rw [pydiv, if_neg htotal.ne']
  have hq : pydiv (((cfgs.map
      (scenResOf ((p.map (·.amount)).sum) (groupAmounts p) h)).map
        (fun r => r.final_value * r.probability)).sum)
      ((p.map (·.amount)).sum)
      = .ok ((((cfgs.map
          (scenResOf ((p.map (·.amount)).sum) (groupAmounts p) h)).map
            (fun r => r.final_value * r.probability)).sum)
          / ((p.map (·.amount)).sum)) := by
    rw [pydiv, if_neg htotal.ne']
  have hcast : ((0:ℚ) : ℚ) < (h : ℚ) := by
    exact_mod_cast (by omega : (0:ℤ) < h)
  have he : pydiv 1 ((h : ℤ) : ℚ) = .ok (1 / ((h : ℤ) : ℚ)) := by
    rw [pydiv, if_neg (by exact_mod_cast (by omega : ¬ (h:ℤ) = 0))]
  have havg := pyfracpow_ok
    (div_nonneg hexp htotal.le) (le_of_lt (div_pos one_pos hcast))
  cases hc : econScenarioCore cfgs p h with
  | error msg =>
      simp only [econScenarioCore, hresults, ok_bind, hw, hwc, hq, he,
        havg] at hc
      exact Except.noConfusion hc
  | ok r =>
      simp only [econScenarioCore, hresults, ok_bind, hw, hwc, hq, he,
        havg] at hc
      have hrec := Except.ok.inj hc
      exact ⟨r, rfl, (congrArg EconResult.scenarios hrec).symm,
        (congrArg EconResult.scenario_results hrec).symm,
        (congrArg EconResult.expected_value hrec).symm⟩

/-- On the empty portfolio the scenario core raises: the scenario loop
itself survives (no division is reached since there are no grouped
categories), but the worst-case-change step divides by the zero total. -/
theorem econCore_empty (h : ℤ) :
    econScenarioCore scenario_config [] h = .error "ZeroDivisionError" := by
  have hres : ∀ cfg ∈ scenario_config,
      (do
        let wr ← weightedSumE (scenCoeff cfg)
          ((([] : List Holding).map (·.amount)).sum) (groupAmounts [])
        let pw ← pyzpow (1 + wr) h
        pure ({ name := cfg.name, annual_return := wr,
                final_value := ((([] : List Holding).map (·.amount)).sum) * pw,
                probability := cfg.probability } : ScenRes)
        : Except String ScenRes)
      = .ok (scenResOf ((([] : List Holding).map (·.amount)).sum)
          (groupAmounts []) h cfg) := by
    intro cfg _
    rw [show weightedSumE (scenCoeff cfg)
        ((([] : List Holding).map (·.amount)).sum) (groupAmounts [])
        = .ok 0 from rfl, ok_bind,
      pyzpow_ok (fun hcon => absurd hcon.1 (by norm_num)), ok_bind]
    rfl
  have hresults := mapME_ok hres
  obtain ⟨w, hw⟩ := worstOf_isSome
    (l := scenario_config.map (scenResOf
      ((([] : List Holding).map (·.amount)).sum) (groupAmounts []) h))
    (by simp [scenario_config])
  have hwc : pydiv (w.final_value - (([] : List Holding).map (·.amount)).sum)
      ((([] : List Holding).map (·.amount)).sum)
      = .error "ZeroDivisionError" := by
    rw [pydiv,
      if_pos (show ((([] : List Holding).map (·.amount)).sum : ℚ) = 0
        from rfl)]
  simp only [econScenarioCore, hresults, ok_bind, hw, hwc, error_bind]

/-- C10: `generate_economic_scenario_analysis` never propagates an
exception — every input yields a structured result with a non-empty
scenario list, and on the empty portfolio (where the
worst-case-change step divides by the zero total) it returns the
`except` fallback with a single "Error" scenario and a non-empty
recommendation list. -/
theorem C10_exception_fallback (p : List Holding) (h : ℤ) :
    (generate_economic_scenario_analysis p h).scenarios ≠ [] ∧
    (generate_economic_scenario_analysis [] h).scenarios.map
      (fun s => s.name) = ["Error"] ∧
    (generate_economic_scenario_analysis [] h).recommendations
      = ["Try again with a revised portfolio."] := by
  refine ⟨?_, ?_, ?_⟩
  · rw [generate_economic_scenario_analysis]
    cases hc : econScenarioCore scenario_config p h with
    | error msg => simp [econFallback]
    | ok r =>
        have hs := econCore_ok_scenarios hc
        simp [hs, scenario_config]
  · rw [generate_economic_scenario_analysis, econCore_empty]
    simp [econFallback]
  · rw [generate_economic_scenario_analysis, econCore_empty]
    rfl

/-- C5: for every portfolio of nonnegative amounts with positive total
value and every positive integer horizon, the scenario analysis succeeds
and its expected value equals exactly the probability-weighted sum of
`total * (1 + weightedReturn(s)) ** horizon` over the scenario set, and
running the core on any permutation of the scenario set yields the same
expected value. -/
theorem C5_expected_value (p : List Holding) (h : ℤ)
    (hpos : ∀ i ∈ p, 0 ≤ i.amount)
    (htotal : 0 < (p.map (·.amount)).sum) (hh : 1 ≤ h) :
    ∃ r, generate_economic_scenario_analysis p h = r ∧
      econScenarioCore scenario_config p h = .ok r ∧
      r.expected_value = some ((scenario_config.map (fun cfg =>
        ((p.map (·.amount)).sum * (1 + weightedSumPure (scenCoeff cfg)
          ((p.map (·.amount)).sum) (groupAmounts p)) ^ h)
          * cfg.probability)).sum) ∧
      ∀ cfgs2 : List ScenarioCfg, cfgs2.Perm scenario_config →
        ∃ r2, econScenarioCore cfgs2 p h = .ok r2 ∧
          r2.expected_value = r.expected_value := by
  obtain ⟨r, hcore, hscen, hsres, hexp⟩ := econCore_ok scenario_config p h
    (by simp [scenario_config]) scenCoeff_bounds scenario_config_prob_nonneg
    hpos htotal hh
  refine ⟨r, ?_, hcore, ?_, ?_⟩
  · rw [generate_economic_scenario_analysis, hcore]
  · rw [hexp, List.map_map]
    rfl
  · intro cfgs2 hperm
    have hmem : ∀ cfg ∈ cfgs2, cfg ∈ scenario_config :=
      fun cfg hc => hperm.mem_iff.mp hc
    obtain ⟨r2, hcore2, hscen2, hsres2, hexp2⟩ := econCore_ok cfgs2 p h
      (by
        intro hnil
        rw [hnil] at hperm
        exact absurd hperm.symm.eq_nil (by simp [scenario_config]))
      (fun cfg hc c => scenCoeff_bounds cfg (hmem cfg hc) c)
      (fun cfg hc => scenario_config_prob_nonneg cfg (hmem cfg hc))
      hpos htotal hh
    refine ⟨r2, hcore2, ?_⟩
    rw [hexp2, hexp]
    congr 1
    exact (List.Perm.map _ (List.Perm.map _ hperm)).sum_eq

/-- Witness for C5 at a two-holding positive portfolio and horizon 5. -/
theorem C5_expected_value_witness :
    ∃ r, generate_economic_scenario_analysis posPortfolio 5 = r ∧
      econScenarioCore scenario_config posPortfolio 5 = .ok r ∧
      r.expected_value = some ((scenario_config.map (fun cfg =>
        ((posPortfolio.map (·.amount)).sum
          * (1 + weightedSumPure (scenCoeff cfg)
            ((posPortfolio.map (·.amount)).sum)
            (groupAmounts posPortfolio)) ^ (5:ℤ))
          * cfg.probability)).sum) ∧
      ∀ cfgs2 : List ScenarioCfg, cfgs2.Perm scenario_config →
        ∃ r2, econScenarioCore cfgs2 posPortfolio 5 = .ok r2 ∧
          r2.expected_value = r.expected_value :=
  C5_expected_value posPortfolio 5 (by norm_num [posPortfolio])
    (by norm_num [posPortfolio]) (by norm_num)

/-- Witness for C1 at a two-holding portfolio. -/
theorem C1_weights_sum_100_witness :
    (posPortfolio ≠ []) ∧
    (∃ r, analyze_portfolio posPortfolio "Medium Risk (Balanced)" = .ok r ∧
      (r.current_allocation.map Prod.snd).sum = 100) :=
  ⟨by simp [posPortfolio],
   C1_weights_sum_100 _ "Medium Risk (Balanced)" (by simp [posPortfolio])
     (by norm_num [posPortfolio])⟩
